import Mathlib

/-!
Verification of the AviTab tile caching and rasterization core.

This file gives a shallow embedding of the two central components of the
repository — `TileCache` (src/libimg/stitcher/TileCache.cpp) and
`Rasterizer` (src/libimg/Rasterizer.cpp) — and proves the specified
properties about them.

Modelling conventions:
* Machine integers (`int` coordinates) are embedded as `Int`.
* `std::chrono::steady_clock::time_point` values are embedded as `Nat`
  nanosecond counts; `std::chrono::duration_cast<std::chrono::seconds>`
  is truncating division by `10^9`.
* `std::map` (the `memoryCache`) is embedded as an association list with
  the `std::map::insert` semantics: insertion is a no-op when the key is
  already present.
* `std::set` (`loadSet` / `errorSet`) is embedded as `Finset`.
* C++ exceptions are embedded as `Except`-style sum results; a function
  that can throw returns the state it had produced at the throw point.
* External collaborators (the `TileSource` implementation, the platform
  layer, the image codec) are environment records of pure functions.
* Calls into collaborators are additionally recorded in an event trace so
  that "invokes X" / "never calls Y" properties can be stated.
* The cache mutex and the worker's condition variable serialize all cache
  operations in the C++ code; the embedding therefore gives each operation
  an atomic sequential semantics. `notify_one` appears as a trace event.
-/

namespace AviTab

/-- Tile coordinate triple, `TileCoords` from TileCache.h: (x, y, zoom). -/
structure TileCoords where
  x : Int
  y : Int
  zoom : Int
deriving DecidableEq, Repr

/-- Abstract image handle (`std::shared_ptr<img::Image>`); the pixel
contents are irrelevant to the cache, so images are identified by an id. -/
structure Image where
  id : Nat
deriving DecidableEq, Repr

/-- One `memoryCache` entry: `std::tuple<std::shared_ptr<Image>, TimeStamp>`.
The timestamp is a steady-clock reading in nanoseconds. -/
structure MemCacheEntry where
  img : Image
  timeStamp : Nat
deriving DecidableEq, Repr

/-- The memory cache `std::map<std::string, MemCacheEntry>`, embedded as an
association list from artifact path to entry. -/
abbrev MemoryCache := List (String × MemCacheEntry)

/-- Key lookup in the association list (`std::map::find`). -/
def mapFind (k : String) : MemoryCache → Option MemCacheEntry
  | [] => none
  | (k2, v) :: rest => if k = k2 then some v else mapFind k rest

/-- `std::map::insert`: inserts only when the key is absent; when the key is
already present the map is left unchanged (no overwrite). -/
def mapInsert (k : String) (v : MemCacheEntry) (m : MemoryCache) : MemoryCache :=
  if (mapFind k m).isSome then m else (k, v) :: m

/-- In-place refresh of the timestamp stored under key `k`
(`std::get<1>(entry) = std::chrono::steady_clock::now()`). -/
def touch (k : String) (now : Nat) (m : MemoryCache) : MemoryCache :=
  m.map (fun p => if p.1 = k then (p.1, { p.2 with timeStamp := now }) else p)

/-- Result of `TileSource::loadTileImage`: the C++ code distinguishes a
`std::out_of_range` throw (cancellation) from any other `std::exception`
(failure), and otherwise returns an image. -/
inductive LoadResult where
  | cancelled
  | failure (msg : String)
  | ok (img : Image)
deriving DecidableEq, Repr

/-- The `TileSource` collaborator consumed by the cache, as a record of pure
functions. `checkAndCorrect` models `checkAndCorrectTileCoordinates`, which
normalizes its in-out arguments and reports unrepresentable coordinates by
returning `false` (here: `none`). -/
structure TileSource where
  checkAndCorrect : Int → Int → Int → Option TileCoords
  getFilePathForTile : TileCoords → String
  loadTileImage : TileCoords → LoadResult

/-- The platform / image-codec environment. `loadImageFile` models
`Image::loadImageFile`, which either throws (`Except.error`) or yields an
image; its failure behaviour is outside src/ and is kept fully abstract. -/
structure Platform where
  fileExists : String → Bool
  loadImageFile : String → Except String Image

/-- Externally observable calls made by the cache, in program order. -/
inductive Event where
  | cancelPendingLoads
  | resumeLoading
  | notifyOne
  | memLookup (path : String)
  | fileExists (fileName : String)
  | decodeFile (fileName : String)
  | loadTileImage (coords : TileCoords)
  | storeFile (fileName : String)
deriving DecidableEq, Repr

/-- The mutable state of a `TileCache`. -/
structure CacheState where
  memoryCache : MemoryCache
  loadSet : Finset TileCoords
  errorSet : Finset TileCoords
  cacheDir : String
deriving DecidableEq

/-- Errors thrown out of `TileCache::getTile`: the two `runtime_error`s the
function itself throws, plus a propagated image-decode throw. -/
inductive TCError where
  | invalidCoordinates
  | corruptTile
  | imageLoadError (msg : String)
deriving DecidableEq, Repr

/-- `TileCache::enterMemoryCache`: stamps the image with the current time
and inserts it under the artifact path (a `std::map::insert`, hence a no-op
on an existing key). -/
def enterMemoryCache (src : TileSource) (now : Nat) (s : CacheState)
    (x y zoom : Int) (img : Image) : CacheState :=
  { s with memoryCache :=
      mapInsert (src.getFilePathForTile ⟨x, y, zoom⟩) ⟨img, now⟩ s.memoryCache }

/-- `TileCache::getFromMemory`: look the artifact path up in the memory
cache; on a hit, refresh the entry's timestamp and return its image. -/
def getFromMemory (src : TileSource) (now : Nat) (s : CacheState)
    (x y zoom : Int) : Option Image × CacheState × List Event :=
  let path := src.getFilePathForTile ⟨x, y, zoom⟩
  match mapFind path s.memoryCache with
  | none => (none, s, [Event.memLookup path])
  | some entry =>
      (some entry.img,
       { s with memoryCache := touch path now s.memoryCache },
       [Event.memLookup path])

/-- `TileCache::getFromDisk`: if `cacheDir/path` exists, decode it and enter
it into the memory cache; a decode throw propagates (`Except.error`) with no
state change; an absent file is a miss. -/
def getFromDisk (src : TileSource) (pf : Platform) (now : Nat) (s : CacheState)
    (x y zoom : Int) : Except String (Option Image) × CacheState × List Event :=
  let fileName := s.cacheDir ++ "/" ++ src.getFilePathForTile ⟨x, y, zoom⟩
  if pf.fileExists fileName then
    match pf.loadImageFile fileName with
    | Except.error e =>
        (Except.error e, s, [Event.fileExists fileName, Event.decodeFile fileName])
    | Except.ok img =>
        (Except.ok (some img), enterMemoryCache src now s x y zoom img,
         [Event.fileExists fileName, Event.decodeFile fileName])
  else
    (Except.ok none, s, [Event.fileExists fileName])

/-- `TileCache::enqueue`: insert the coordinate into `loadSet` (a
`std::set::insert`, idempotent) and signal the worker's condition. -/
def enqueue (s : CacheState) (x y zoom : Int) : CacheState × List Event :=
  ({ s with loadSet := insert (TileCoords.mk x y zoom) s.loadSet },
   [Event.notifyOne])

/-- `TileCache::getTile`: normalize, then under the cache lock check the
error set, the memory cache and the disk cache in that order; on a full miss
enqueue the coordinate and return a miss (`Except.ok none`). -/
def getTile (src : TileSource) (pf : Platform) (now : Nat) (s : CacheState)
    (x y zoom : Int) : Except TCError (Option Image) × CacheState × List Event :=
  match src.checkAndCorrect x y zoom with
  | none => (Except.error TCError.invalidCoordinates, s, [])
  | some c =>
    if c ∈ s.errorSet then
      (Except.error TCError.corruptTile, s, [])
    else
      let m := getFromMemory src now s c.x c.y c.zoom
      match m.1 with
      | some img => (Except.ok (some img), m.2.1, m.2.2)
      | none =>
        let d := getFromDisk src pf now m.2.1 c.x c.y c.zoom
        match d.1 with
        | Except.error e =>
            (Except.error (TCError.imageLoadError e), d.2.1, m.2.2 ++ d.2.2)
        | Except.ok (some img) =>
            (Except.ok (some img), d.2.1, m.2.2 ++ d.2.2)
        | Except.ok none =>
            (Except.ok none, (enqueue d.2.1 c.x c.y c.zoom).1,
             m.2.2 ++ d.2.2 ++ (enqueue d.2.1 c.x c.y c.zoom).2)

/-- Iterated `getTile` at the same coordinate and environment, threading the
cache state through `K` consecutive calls. -/
def getTileIter (src : TileSource) (pf : Platform) (now : Nat)
    (x y zoom : Int) : Nat → CacheState → CacheState
  | 0, s => s
  | Nat.succ k, s => getTileIter src pf now x y zoom k (getTile src pf now s x y zoom).2.1

/-- `TileCache::loadAndCacheTile`: call the producer; on a cancellation
throw return with no state change, on any other throw insert the coordinate
into `errorSet`, and on success enter the image into the memory cache and
persist it to `cacheDir/path`. -/
def loadAndCacheTile (src : TileSource) (now : Nat) (s : CacheState)
    (x y zoom : Int) : CacheState × List Event :=
  match src.loadTileImage ⟨x, y, zoom⟩ with
  | LoadResult.cancelled => (s, [Event.loadTileImage ⟨x, y, zoom⟩])
  | LoadResult.failure _ =>
      ({ s with errorSet := insert (TileCoords.mk x y zoom) s.errorSet },
       [Event.loadTileImage ⟨x, y, zoom⟩])
  | LoadResult.ok img =>
      (enterMemoryCache src now s x y zoom img,
       [Event.loadTileImage ⟨x, y, zoom⟩,
        Event.storeFile (s.cacheDir ++ "/" ++ src.getFilePathForTile ⟨x, y, zoom⟩)])

/-- One dequeue-and-process round of `TileCache::loadLoop`, for the
iteration that removed coordinate `c` from `loadSet` (the loop takes an
arbitrary element; the spec promises no order): erase `c`, call
`resumeLoading`, re-check the memory cache, and only on a miss call
`loadAndCacheTile`. The trailing `flushCache()` of the loop body is modelled
separately by `flushCache`. -/
def workerProcess (src : TileSource) (now : Nat) (s : CacheState)
    (c : TileCoords) : CacheState × List Event :=
  let s1 : CacheState := { s with loadSet := s.loadSet.erase c }
  let m := getFromMemory src now s1 c.x c.y c.zoom
  match m.1 with
  | some _ => (m.2.1, Event.resumeLoading :: m.2.2)
  | none =>
      ((loadAndCacheTile src now m.2.1 c.x c.y c.zoom).1,
       Event.resumeLoading :: (m.2.2 ++ (loadAndCacheTile src now m.2.1 c.x c.y c.zoom).2))

/-- `TileCache::cancelPendingRequests`: under the lock, ask the source to
cancel pending loads, then clear `errorSet` and `loadSet`. -/
def cancelPendingRequests (s : CacheState) : CacheState × List Event :=
  ({ s with errorSet := ∅, loadSet := ∅ }, [Event.cancelPendingLoads])

/-- `TileCache::purge`: `cancelPendingRequests()` followed by clearing the
memory cache. -/
def purge (s : CacheState) : CacheState × List Event :=
  ({ (cancelPendingRequests s).1 with memoryCache := [] },
   (cancelPendingRequests s).2)

/-- Nanoseconds per second, the granularity of the embedded steady clock. -/
def NANOS_PER_SECOND : Nat := 1000000000

/-- Modelled from the spec: `CACHE_SECONDS` is defined in TileCache.h, which
is not under src/; the spec fixes it as "memory-eviction age threshold
(seconds). Recommended: 30". -/
def CACHE_SECONDS : Nat := 30

/-- `TileCache::flushCache`: erase every memory entry whose age, truncated
to whole seconds, is at least `CACHE_SECONDS`. -/
def flushCache (now : Nat) (s : CacheState) : CacheState :=
  { s with memoryCache :=
      (s.memoryCache.filter
        (fun e => (now - e.2.timeStamp) / NANOS_PER_SECOND < CACHE_SECONDS)) }

/-- A page display list held by the Rasterizer (`fz_display_list`), tagged
with the page number it was built from. -/
structure DisplayList where
  page : Int
deriving DecidableEq, Repr

/-- The Rasterizer's current-page slot: `currentPageNum` and the (possibly
null) `currentPageList`. -/
structure RasterizerState where
  currentPageNum : Int
  currentPageList : Option DisplayList
deriving DecidableEq, Repr

/-- Display-list lifecycle events emitted by the Rasterizer
(`fz_drop_display_list` / `fz_new_display_list_from_page_number`). -/
inductive REvent where
  | dropDisplayList (dl : DisplayList)
  | newDisplayList (page : Int)
deriving DecidableEq, Repr

/-- `Rasterizer::freeCurrentPage`: drop the current display list, when one
is held, and null the slot. -/
def freeCurrentPage (s : RasterizerState) : RasterizerState × List REvent :=
  match s.currentPageList with
  | some dl => ({ s with currentPageList := none }, [REvent.dropDisplayList dl])
  | none => (s, [])

/-- `Rasterizer::loadPage`: when `page` is already current and the list is
non-null, return immediately; otherwise free the current page and build the
display list for `page`. -/
def loadPage (s : RasterizerState) (page : Int) : RasterizerState × List REvent :=
  if page = s.currentPageNum ∧ s.currentPageList.isSome then (s, [])
  else
    ({ currentPageNum := page, currentPageList := some ⟨page⟩ },
     (freeCurrentPage s).2 ++ [REvent.newDisplayList page])

/-- `Rasterizer::loadTile(page, x, y, zoom)` begins with `loadPage(page)`;
the remainder of the function allocates a pixmap and a draw device and runs
the display list, but never creates or drops a display list and never
writes `currentPageNum` or `currentPageList`, so its effect on the page
slot and on the display-list event trace is exactly that of `loadPage`. -/
def loadTile (s : RasterizerState) (page : Int) : RasterizerState × List REvent :=
  loadPage s page

/-- `Rasterizer::getPageWidth`: the C++ computes
`(int)((int)(rect.x1 - rect.x0) * pow(sqrt(2), zoom))`, i.e. it truncates
the page width to an integer `w` and then truncates `w * sqrt(2)^zoom`.
For `w ≥ 0` the exact-real value of that expression is
`⌊w * sqrt(2)^zoom⌋ = Nat.sqrt (w * w * 2^zoom)`, which is how the floating
point is embedded (exact real arithmetic). -/
def getPageWidth (w : Nat) (zoom : Nat) : Nat :=
  Nat.sqrt (w * w * 2 ^ zoom)

/-- `Rasterizer::getPageHeight`, identically to `getPageWidth` with the
truncated page height `h`. -/
def getPageHeight (h : Nat) (zoom : Nat) : Nat :=
  Nat.sqrt (h * h * 2 ^ zoom)

/-- Sample image for concrete witnesses. -/
def sampleImage : Image := ⟨1⟩

/-- Sample tile source whose producer succeeds. -/
def sampleSource : TileSource :=
  ⟨fun x y z => some ⟨x, y, z⟩, fun _ => "tile.png", fun _ => LoadResult.ok sampleImage⟩

/-- Sample tile source whose producer reports cancellation. -/
def cancelledSource : TileSource :=
  ⟨fun x y z => some ⟨x, y, z⟩, fun _ => "tile.png", fun _ => LoadResult.cancelled⟩

/-- Sample tile source whose producer always fails. -/
def failingSource : TileSource :=
  ⟨fun x y z => some ⟨x, y, z⟩, fun _ => "tile.png", fun _ => LoadResult.failure "net"⟩

/-- Platform with an empty disk. -/
def diskAbsent : Platform := ⟨fun _ => false, fun _ => Except.error "no file"⟩

/-- Platform where the tile file exists but decoding it throws. -/
def diskBroken : Platform := ⟨fun _ => true, fun _ => Except.error "decode failed"⟩

/-- Platform where the tile file exists and decodes to `sampleImage`. -/
def diskGood : Platform := ⟨fun _ => true, fun _ => Except.ok sampleImage⟩

/-- Fresh cache state with nothing cached or errored. -/
def emptyState : CacheState := ⟨[], ∅, ∅, "cache"⟩

/-- Cache state whose error set contains tile (0, 0, 0). -/
def errState : CacheState := ⟨[], ∅, {⟨0, 0, 0⟩}, "cache"⟩

/-- Cache state holding one memory entry for the sample artifact path. -/
def memState : CacheState := ⟨[("tile.png", ⟨⟨7⟩, 5⟩)], ∅, ∅, "cache"⟩

/-- Cache state with tile (0, 0, 0) pending in the load set. -/
def pendingState : CacheState := ⟨[], {⟨0, 0, 0⟩}, ∅, "cache"⟩

theorem mapFind_touch (k : String) (now : Nat) (m : MemoryCache) :
    mapFind k (touch k now m) =
      (mapFind k m).map (fun e => { e with timeStamp := now }) := by
  induction m with
  | nil => rfl
  | cons p rest ih =>
      rcases p with ⟨k2, v⟩
      by_cases h : k = k2
      · subst h
        have ht : touch k now ((k, v) :: rest) =
            (k, { v with timeStamp := now }) :: touch k now rest := by
          simp [touch]
        rw [ht]
        simp [mapFind]
      · have ht : touch k now ((k2, v) :: rest) = (k2, v) :: touch k now rest := by
          simp only [touch, List.map_cons]
          rw [if_neg (fun hk => h hk.symm)]
        rw [ht]
        simp only [mapFind, if_neg h]
        simpa [touch] using ih

theorem getTile_full_miss_aux (src : TileSource) (pf : Platform) (now : Nat)
    (s : CacheState) (x y zoom : Int) (c : TileCoords)
    (hnorm : src.checkAndCorrect x y zoom = some c)
    (herr : c ∉ s.errorSet)
    (hmem : mapFind (src.getFilePathForTile c) s.memoryCache = none)
    (hdisk : pf.fileExists (s.cacheDir ++ "/" ++ src.getFilePathForTile c) = false) :
    getTile src pf now s x y zoom =
      (Except.ok none, { s with loadSet := insert c s.loadSet },
       [Event.memLookup (src.getFilePathForTile c),
        Event.fileExists (s.cacheDir ++ "/" ++ src.getFilePathForTile c),
        Event.notifyOne]) := by
  have hc : (⟨c.x, c.y, c.zoom⟩ : TileCoords) = c := rfl
  simp only [getTile, hnorm]
  rw [if_neg herr]
  simp only [getFromMemory, getFromDisk, enqueue, hc, hmem, hdisk]
  simp

/-- C1: After `purge()` returns, `memoryCache` is empty, `loadSet` is empty,
and `errorSet` is empty (purge clears the error set through its call to
`cancelPendingRequests`, settling the spec's section-9 doubt), and
`TileSource::cancelPendingLoads` has been invoked. -/
theorem purge_clears_all_and_cancels (s : CacheState) :
    (purge s).1.memoryCache = [] ∧ (purge s).1.loadSet = ∅ ∧
    (purge s).1.errorSet = ∅ ∧ Event.cancelPendingLoads ∈ (purge s).2 := by
  refine ⟨rfl, rfl, rfl, ?_⟩
  simp [purge, cancelPendingRequests]

/-- C5: After `cancelPendingRequests()` returns, `loadSet` and `errorSet`
are empty and `TileSource::cancelPendingLoads` has been invoked, while
`memoryCache` is exactly the one from before the call. -/
theorem cancelPendingRequests_retains_memory (s : CacheState) :
    (cancelPendingRequests s).1.loadSet = ∅ ∧
    (cancelPendingRequests s).1.errorSet = ∅ ∧
    (cancelPendingRequests s).1.memoryCache = s.memoryCache ∧
    Event.cancelPendingLoads ∈ (cancelPendingRequests s).2 := by
  refine ⟨rfl, rfl, rfl, ?_⟩
  simp [cancelPendingRequests]

/-- C3: for a coordinate accepted by normalization that lies in `errorSet`
at lock-acquire time, `getTile` fails with the corrupt-tile error, leaves
the state unchanged (in particular `loadSet` gains nothing) and performs no
memory, disk or producer interaction (empty event trace). -/
theorem getTile_errored_fails_fast (src : TileSource) (pf : Platform)
    (now : Nat) (s : CacheState) (x y zoom : Int) (c : TileCoords)
    (hnorm : src.checkAndCorrect x y zoom = some c)
    (herr : c ∈ s.errorSet) :
    getTile src pf now s x y zoom = (Except.error TCError.corruptTile, s, []) := by
  simp only [getTile, hnorm]
  rw [if_pos herr]

theorem getTile_errored_fails_fast_witness :
    sampleSource.checkAndCorrect 0 0 0 = some ⟨0, 0, 0⟩ ∧
    (⟨0, 0, 0⟩ : TileCoords) ∈ errState.errorSet ∧
    getTile sampleSource diskAbsent 0 errState 0 0 0 =
      (Except.error TCError.corruptTile, errState, []) :=
  ⟨rfl, by decide,
   getTile_errored_fails_fast sampleSource diskAbsent 0 errState 0 0 0 ⟨0, 0, 0⟩
     rfl (by decide)⟩

/-- C9: display-list discipline of `loadTile` (whose page-slot effect is
`loadPage`): a call on the already-current page with a non-null list is a
no-op (no rebuild, no events); a call on a different page while a list is
held drops that list strictly before building the new one; a call with no
list held builds the new list without any drop. Since the slot is the sole
owner, at most one display list is live at every point. -/
theorem loadTile_display_list_discipline (s : RasterizerState) (page : Int) :
    (page = s.currentPageNum → s.currentPageList.isSome → loadTile s page = (s, [])) ∧
    (∀ dl, s.currentPageList = some dl → page ≠ s.currentPageNum →
      loadTile s page =
        (⟨page, some ⟨page⟩⟩, [REvent.dropDisplayList dl, REvent.newDisplayList page])) ∧
    (s.currentPageList = none →
      loadTile s page = (⟨page, some ⟨page⟩⟩, [REvent.newDisplayList page])) := by
  refine ⟨?_, ?_, ?_⟩
  · intro hp hl
    simp [loadTile, loadPage, hp, hl]
  · intro dl hdl hp
    simp [loadTile, loadPage, freeCurrentPage, hdl, hp]
  · intro hnone
    simp [loadTile, loadPage, freeCurrentPage, hnone]

theorem loadTile_display_list_discipline_witness :
    ((⟨3, some ⟨3⟩⟩ : RasterizerState).currentPageList = some ⟨3⟩) ∧ (5 : Int) ≠ 3 ∧
    loadTile ⟨3, some ⟨3⟩⟩ 5 =
      (⟨5, some ⟨5⟩⟩, [REvent.dropDisplayList ⟨3⟩, REvent.newDisplayList 5]) :=
  ⟨rfl, by decide,
   (loadTile_display_list_discipline ⟨3, some ⟨3⟩⟩ 5).2.1 ⟨3⟩ rfl (by decide)⟩

/-- C10: entering an image into `memoryCache` when an entry for the same
artifact path already exists is a no-op: `std::map::insert` neither
overwrites the stored image nor refreshes the stored timestamp, and the
whole cache state is left unchanged. -/
theorem enterMemoryCache_never_overwrites (src : TileSource) (now : Nat)
    (s : CacheState) (x y zoom : Int) (img : Image) (entry : MemCacheEntry)
    (h : mapFind (src.getFilePathForTile ⟨x, y, zoom⟩) s.memoryCache = some entry) :
    enterMemoryCache src now s x y zoom img = s ∧
    mapFind (src.getFilePathForTile ⟨x, y, zoom⟩)
      (enterMemoryCache src now s x y zoom img).memoryCache = some entry := by
  have h1 : enterMemoryCache src now s x y zoom img = s := by
    simp [enterMemoryCache, mapInsert, h]
  exact ⟨h1, by rw [h1]; exact h⟩

theorem enterMemoryCache_never_overwrites_witness :
    mapFind (sampleSource.getFilePathForTile ⟨0, 0, 0⟩) memState.memoryCache =
      some ⟨⟨7⟩, 5⟩ ∧
    enterMemoryCache sampleSource 999 memState 0 0 0 ⟨42⟩ = memState ∧
    mapFind (sampleSource.getFilePathForTile ⟨0, 0, 0⟩)
      (enterMemoryCache sampleSource 999 memState 0 0 0 ⟨42⟩).memoryCache =
      some ⟨⟨7⟩, 5⟩ := by
  have h : mapFind (sampleSource.getFilePathForTile ⟨0, 0, 0⟩) memState.memoryCache =
      some ⟨⟨7⟩, 5⟩ := by decide
  exact ⟨h, (enterMemoryCache_never_overwrites sampleSource 999 memState 0 0 0 ⟨42⟩ ⟨⟨7⟩, 5⟩ h).1,
    (enterMemoryCache_never_overwrites sampleSource 999 memState 0 0 0 ⟨42⟩ ⟨⟨7⟩, 5⟩ h).2⟩

/-- C7: on a full miss (normalized coordinate not errored, artifact path not
in memory, file absent from disk), `getTile` inserts the coordinate into
`loadSet`, signals the worker (`notifyOne`), returns a miss and never calls
`loadTileImage` itself; and since `loadSet` is a set, `K + 1` such calls in
succession leave the state at exactly one insertion. -/
theorem getTile_full_miss_enqueue_idempotent (src : TileSource) (pf : Platform)
    (now : Nat) (s : CacheState) (x y zoom : Int) (c : TileCoords)
    (hnorm : src.checkAndCorrect x y zoom = some c)
    (herr : c ∉ s.errorSet)
    (hmem : mapFind (src.getFilePathForTile c) s.memoryCache = none)
    (hdisk : pf.fileExists (s.cacheDir ++ "/" ++ src.getFilePathForTile c) = false) :
    getTile src pf now s x y zoom =
      (Except.ok none, { s with loadSet := insert c s.loadSet },
       [Event.memLookup (src.getFilePathForTile c),
        Event.fileExists (s.cacheDir ++ "/" ++ src.getFilePathForTile c),
        Event.notifyOne]) ∧
    (∀ c2, Event.loadTileImage c2 ∉ (getTile src pf now s x y zoom).2.2) ∧
    ∀ K, getTileIter src pf now x y zoom (K + 1) s =
      { s with loadSet := insert c s.loadSet } := by
  have h1 := getTile_full_miss_aux src pf now s x y zoom c hnorm herr hmem hdisk
  refine ⟨h1, ?_, ?_⟩
  · intro c2
    rw [h1]
    simp
  · have hfix : (getTile src pf now { s with loadSet := insert c s.loadSet } x y zoom).2.1
        = { s with loadSet := insert c s.loadSet } := by
      rw [getTile_full_miss_aux src pf now { s with loadSet := insert c s.loadSet }
        x y zoom c hnorm herr hmem hdisk]
      simp
    have hiter : ∀ K, getTileIter src pf now x y zoom K
        { s with loadSet := insert c s.loadSet } =
        { s with loadSet := insert c s.loadSet } := by
      intro K
      induction K with
      | zero => rfl
      | succ k ih =>
          rw [getTileIter, hfix]
          exact ih
    intro K
    have hstep : (getTile src pf now s x y zoom).2.1 =
        { s with loadSet := insert c s.loadSet } := by rw [h1]
    rw [getTileIter, hstep]
    exact hiter K

theorem getTile_full_miss_enqueue_idempotent_witness :
    (⟨0, 0, 0⟩ : TileCoords) ∉ emptyState.errorSet ∧
    mapFind (sampleSource.getFilePathForTile ⟨0, 0, 0⟩) emptyState.memoryCache = none ∧
    diskAbsent.fileExists
      (emptyState.cacheDir ++ "/" ++ sampleSource.getFilePathForTile ⟨0, 0, 0⟩) = false ∧
    getTileIter sampleSource diskAbsent 0 0 0 0 3 emptyState =
      { emptyState with loadSet := insert ⟨0, 0, 0⟩ emptyState.loadSet } :=
  ⟨by decide, rfl, rfl,
   (getTile_full_miss_enqueue_idempotent sampleSource diskAbsent 0 emptyState 0 0 0
     ⟨0, 0, 0⟩ rfl (by decide) rfl rfl).2.2 2⟩

/-- C2: for a coordinate the worker dequeued whose artifact is absent from
the memory cache: a cancelled producer call changes neither `errorSet` nor
`memoryCache` (only the dequeue from `loadSet` remains); any other failure
inserts the coordinate into `errorSet` and leaves `memoryCache` untouched;
a success inserts the image under the artifact path with the fresh timestamp
`now` and persists it to `cacheDir/path`. -/
theorem workerProcess_load_outcomes (src : TileSource) (now : Nat)
    (s : CacheState) (c : TileCoords)
    (hmem : mapFind (src.getFilePathForTile c) s.memoryCache = none) :
    (src.loadTileImage c = LoadResult.cancelled →
      workerProcess src now s c =
        ({ s with loadSet := s.loadSet.erase c },
         [Event.resumeLoading, Event.memLookup (src.getFilePathForTile c),
          Event.loadTileImage c])) ∧
    (∀ msg, src.loadTileImage c = LoadResult.failure msg →
      workerProcess src now s c =
        ({ s with loadSet := s.loadSet.erase c, errorSet := insert c s.errorSet },
         [Event.resumeLoading, Event.memLookup (src.getFilePathForTile c),
          Event.loadTileImage c])) ∧
    (∀ img, src.loadTileImage c = LoadResult.ok img →
      workerProcess src now s c =
        ({ s with
            loadSet := s.loadSet.erase c
            memoryCache := (src.getFilePathForTile c, ⟨img, now⟩) :: s.memoryCache },
         [Event.resumeLoading, Event.memLookup (src.getFilePathForTile c),
          Event.loadTileImage c,
          Event.storeFile (s.cacheDir ++ "/" ++ src.getFilePathForTile c)])) := by
  have hc : (⟨c.x, c.y, c.zoom⟩ : TileCoords) = c := rfl
  refine ⟨?_, ?_, ?_⟩
  · intro h
    simp only [workerProcess, getFromMemory, loadAndCacheTile, hc, hmem, h]
    simp
  · intro msg h
    simp only [workerProcess, getFromMemory, loadAndCacheTile, hc, hmem, h]
    simp
  · intro img h
    simp only [workerProcess, getFromMemory, loadAndCacheTile, enterMemoryCache,
      mapInsert, hc, hmem, h]
    simp

theorem workerProcess_load_outcomes_witness :
    mapFind (cancelledSource.getFilePathForTile ⟨0, 0, 0⟩) pendingState.memoryCache = none ∧
    cancelledSource.loadTileImage ⟨0, 0, 0⟩ = LoadResult.cancelled ∧
    workerProcess cancelledSource 0 pendingState ⟨0, 0, 0⟩ =
      ({ pendingState with loadSet := pendingState.loadSet.erase ⟨0, 0, 0⟩ },
       [Event.resumeLoading, Event.memLookup "tile.png", Event.loadTileImage ⟨0, 0, 0⟩]) :=
  ⟨rfl, rfl,
   (workerProcess_load_outcomes cancelledSource 0 pendingState ⟨0, 0, 0⟩ rfl).1 rfl⟩

/-- C6: `flushCache` at wallclock `now` retains a memory entry with
last-access timestamp `t` iff `now - t < CACHE_SECONDS` (nanosecond
timestamps, so the bound is `CACHE_SECONDS * NANOS_PER_SECOND`; the code's
truncation of the age to whole seconds makes the two readings coincide);
and a successful memory read refreshes the entry's last-access timestamp to
`now`, so the timestamp is updated on every read, not only on insert. -/
theorem flushCache_retention_iff (now : Nat) (s : CacheState)
    (e : String × MemCacheEntry) (src : TileSource) (pf : Platform)
    (x y zoom : Int) (c : TileCoords) (entry : MemCacheEntry) :
    (e ∈ (flushCache now s).memoryCache ↔
      e ∈ s.memoryCache ∧ now - e.2.timeStamp < CACHE_SECONDS * NANOS_PER_SECOND) ∧
    (src.checkAndCorrect x y zoom = some c → c ∉ s.errorSet →
      mapFind (src.getFilePathForTile c) s.memoryCache = some entry →
      getTile src pf now s x y zoom =
        (Except.ok (some entry.img),
         { s with memoryCache := touch (src.getFilePathForTile c) now s.memoryCache },
         [Event.memLookup (src.getFilePathForTile c)]) ∧
      mapFind (src.getFilePathForTile c)
        (getTile src pf now s x y zoom).2.1.memoryCache = some ⟨entry.img, now⟩) := by
  have hc : (⟨c.x, c.y, c.zoom⟩ : TileCoords) = c := rfl
  constructor
  · have hpos : 0 < NANOS_PER_SECOND := by norm_num [NANOS_PER_SECOND]
    simp [flushCache, List.mem_filter, Nat.div_lt_iff_lt_mul hpos]
  · intro hnorm herr h
    have h1 : getTile src pf now s x y zoom =
        (Except.ok (some entry.img),
         { s with memoryCache := touch (src.getFilePathForTile c) now s.memoryCache },
         [Event.memLookup (src.getFilePathForTile c)]) := by
      simp only [getTile, hnorm]
      rw [if_neg herr]
      simp only [getFromMemory, hc, h]
    refine ⟨h1, ?_⟩
    rw [h1]
    simp [mapFind_touch, h]

theorem flushCache_retention_iff_witness :
    mapFind (sampleSource.getFilePathForTile ⟨0, 0, 0⟩) memState.memoryCache =
      some ⟨⟨7⟩, 5⟩ ∧
    (⟨0, 0, 0⟩ : TileCoords) ∉ memState.errorSet ∧
    getTile sampleSource diskAbsent 99 memState 0 0 0 =
      (Except.ok (some ⟨7⟩),
       { memState with memoryCache := touch "tile.png" 99 memState.memoryCache },
       [Event.memLookup "tile.png"]) ∧
    mapFind (sampleSource.getFilePathForTile ⟨0, 0, 0⟩)
      (getTile sampleSource diskAbsent 99 memState 0 0 0).2.1.memoryCache =
      some ⟨⟨7⟩, 99⟩ :=
  ⟨by decide, by decide,
   ((flushCache_retention_iff 99 memState ("tile.png", ⟨⟨7⟩, 5⟩) sampleSource diskAbsent
      0 0 0 ⟨0, 0, 0⟩ ⟨⟨7⟩, 5⟩).2 rfl (by decide) (by decide)).1,
   ((flushCache_retention_iff 99 memState ("tile.png", ⟨⟨7⟩, 5⟩) sampleSource diskAbsent
      0 0 0 ⟨0, 0, 0⟩ ⟨⟨7⟩, 5⟩).2 rfl (by decide) (by decide)).2⟩

/-- C4 is refuted on the code: with the tile file present on disk but its
decode throwing, `getTile` does not proceed as an ordinary miss — it
propagates the decode error to the caller instead of returning the empty
result. -/
theorem getFromDisk_decode_failure_counterexample :
    getTile sampleSource diskBroken 0 emptyState 0 0 0 =
      (Except.error (TCError.imageLoadError "decode failed"), emptyState,
       [Event.memLookup "tile.png", Event.fileExists "cache/tile.png",
        Event.decodeFile "cache/tile.png"]) ∧
    (getTile sampleSource diskBroken 0 emptyState 0 0 0).1 ≠ Except.ok none := by
  have h1 : getTile sampleSource diskBroken 0 emptyState 0 0 0 =
      (Except.error (TCError.imageLoadError "decode failed"), emptyState,
       [Event.memLookup "tile.png", Event.fileExists "cache/tile.png",
        Event.decodeFile "cache/tile.png"]) := rfl
  refine ⟨h1, ?_⟩
  rw [h1]
  simp

/-- C4 (amended): `getFromDisk` performs no decode-failure handling. When
the disk file for the tile exists, `getTile` never treats the call as a
miss: a throwing decode propagates out of `getTile` (with no cache-state
change and no enqueue), and a non-throwing decode result — whatever image
it produced — is entered into `memoryCache` and returned as a hit. -/
theorem getTile_existing_file_behaviour (src : TileSource) (pf : Platform)
    (now : Nat) (s : CacheState) (x y zoom : Int) (c : TileCoords)
    (hnorm : src.checkAndCorrect x y zoom = some c)
    (herr : c ∉ s.errorSet)
    (hmem : mapFind (src.getFilePathForTile c) s.memoryCache = none)
    (hdisk : pf.fileExists (s.cacheDir ++ "/" ++ src.getFilePathForTile c) = true) :
    ((∀ e, pf.loadImageFile (s.cacheDir ++ "/" ++ src.getFilePathForTile c) =
        Except.error e →
      getTile src pf now s x y zoom =
        (Except.error (TCError.imageLoadError e), s,
         [Event.memLookup (src.getFilePathForTile c),
          Event.fileExists (s.cacheDir ++ "/" ++ src.getFilePathForTile c),
          Event.decodeFile (s.cacheDir ++ "/" ++ src.getFilePathForTile c)])) ∧
     (∀ img, pf.loadImageFile (s.cacheDir ++ "/" ++ src.getFilePathForTile c) =
        Except.ok img →
      getTile src pf now s x y zoom =
        (Except.ok (some img),
         { s with memoryCache := (src.getFilePathForTile c, ⟨img, now⟩) :: s.memoryCache },
         [Event.memLookup (src.getFilePathForTile c),
          Event.fileExists (s.cacheDir ++ "/" ++ src.getFilePathForTile c),
          Event.decodeFile (s.cacheDir ++ "/" ++ src.getFilePathForTile c)]))) ∧
    (getTile src pf now s x y zoom).1 ≠ Except.ok none := by
  have hc : (⟨c.x, c.y, c.zoom⟩ : TileCoords) = c := rfl
  have herror : ∀ e, pf.loadImageFile (s.cacheDir ++ "/" ++ src.getFilePathForTile c) =
      Except.error e →
      getTile src pf now s x y zoom =
        (Except.error (TCError.imageLoadError e), s,
         [Event.memLookup (src.getFilePathForTile c),
          Event.fileExists (s.cacheDir ++ "/" ++ src.getFilePathForTile c),
          Event.decodeFile (s.cacheDir ++ "/" ++ src.getFilePathForTile c)]) := by
    intro e h
    simp only [getTile, hnorm]
    rw [if_neg herr]
    simp only [getFromMemory, getFromDisk, hc, hmem, hdisk, h]
    simp
  have hok : ∀ img, pf.loadImageFile (s.cacheDir ++ "/" ++ src.getFilePathForTile c) =
      Except.ok img →
      getTile src pf now s x y zoom =
        (Except.ok (some img),
         { s with memoryCache := (src.getFilePathForTile c, ⟨img, now⟩) :: s.memoryCache },
         [Event.memLookup (src.getFilePathForTile c),
          Event.fileExists (s.cacheDir ++ "/" ++ src.getFilePathForTile c),
          Event.decodeFile (s.cacheDir ++ "/" ++ src.getFilePathForTile c)]) := by
    intro img h
    simp only [getTile, hnorm]
    rw [if_neg herr]
    simp only [getFromMemory, getFromDisk, enterMemoryCache, mapInsert, hc, hmem, hdisk, h]
    simp
  refine ⟨⟨herror, hok⟩, ?_⟩
  rcases hload : pf.loadImageFile (s.cacheDir ++ "/" ++ src.getFilePathForTile c) with e | img
  · rw [herror e hload]
    simp
  · rw [hok img hload]
    simp

theorem getTile_existing_file_behaviour_witness :
    (⟨0, 0, 0⟩ : TileCoords) ∉ emptyState.errorSet ∧
    mapFind (sampleSource.getFilePathForTile ⟨0, 0, 0⟩) emptyState.memoryCache = none ∧
    diskGood.fileExists
      (emptyState.cacheDir ++ "/" ++ sampleSource.getFilePathForTile ⟨0, 0, 0⟩) = true ∧
    (getTile sampleSource diskGood 0 emptyState 0 0 0).1 ≠ Except.ok none :=
  ⟨by decide, rfl, rfl,
   (getTile_existing_file_behaviour sampleSource diskGood 0 emptyState 0 0 0
     ⟨0, 0, 0⟩ rfl (by decide) rfl rfl).2⟩

theorem sqrt_two_pow (z : ℕ) : Real.sqrt 2 ^ z = Real.sqrt (2 ^ z) := by
  induction z with
  | zero => simp
  | succ n ih =>
      rw [pow_succ, pow_succ, ih, ← Real.sqrt_mul (by positivity)]

theorem getPageWidth_eq_floor (w z : ℕ) :
    getPageWidth w z = ⌊(w : ℝ) * Real.sqrt 2 ^ z⌋₊ := by
  have h1 : Real.sqrt (((w * w * 2 ^ z : ℕ) : ℝ)) = (w : ℝ) * Real.sqrt 2 ^ z := by
    rw [sqrt_two_pow]
    rw [show ((w * w * 2 ^ z : ℕ) : ℝ) = ((w : ℝ) * (w : ℝ)) * ((2 : ℝ) ^ z) from by
      push_cast
      ring]
    rw [Real.sqrt_mul (mul_self_nonneg _), Real.sqrt_mul_self (Nat.cast_nonneg w)]
  show Nat.sqrt (w * w * 2 ^ z) = ⌊(w : ℝ) * Real.sqrt 2 ^ z⌋₊
  rw [← Real.nat_floor_real_sqrt_eq_nat_sqrt, h1]

theorem nat_sqrt_four_mul (n : ℕ) :
    2 * Nat.sqrt n ≤ Nat.sqrt (4 * n) ∧ Nat.sqrt (4 * n) ≤ 2 * Nat.sqrt n + 1 := by
  constructor
  · rw [Nat.le_sqrt]
    have h := Nat.sqrt_le n
    nlinarith
  · have h2 : Nat.sqrt (4 * n) < 2 * Nat.sqrt n + 2 := by
      rw [Nat.sqrt_lt]
      have h := Nat.lt_succ_sqrt n
      nlinarith
    omega

/-- C8: with the floating point of `zoomToScale` read as exact real
arithmetic, the scaled page dimensions at zoom `z` are
`⌊w·√2^z⌋ × ⌊h·√2^z⌋` (fractional pixels truncated; `w`/`h` are the
integer page extents the code computes from the page rectangle), and
consequently `getPageWidth` at zoom `z + 2` equals twice its value at zoom
`z` up to the `+1` of truncation rounding. -/
theorem rasterizer_scale_law (w h z : ℕ) :
    (getPageWidth w z = ⌊(w : ℝ) * Real.sqrt 2 ^ z⌋₊ ∧
     getPageHeight h z = ⌊(h : ℝ) * Real.sqrt 2 ^ z⌋₊) ∧
    2 * getPageWidth w z ≤ getPageWidth w (z + 2) ∧
    getPageWidth w (z + 2) ≤ 2 * getPageWidth w z + 1 := by
  have key : w * w * 2 ^ (z + 2) = 4 * (w * w * 2 ^ z) := by ring
  refine ⟨⟨getPageWidth_eq_floor w z, getPageWidth_eq_floor h z⟩, ?_, ?_⟩
  · show 2 * Nat.sqrt (w * w * 2 ^ z) ≤ Nat.sqrt (w * w * 2 ^ (z + 2))
    rw [key]
    exact (nat_sqrt_four_mul (w * w * 2 ^ z)).1
  · show Nat.sqrt (w * w * 2 ^ (z + 2)) ≤ 2 * Nat.sqrt (w * w * 2 ^ z) + 1
    rw [key]
    exact (nat_sqrt_four_mul (w * w * 2 ^ z)).2

end AviTab
